import Mathlib

/-!
Shallow embedding of the zkcertificates repository's cryptographic core:
the Merkle accumulator service (`MerkleService`, backed by merkletreejs
with options hashLeaves=false, sortPairs=true, duplicateOdd=true), the
proof service (`ZKProofService`), the certificate utilities
(`CertificateUtils`), and the circom circuit `CertificateVerifier(5)`
from `circuits/certificate.circom`.

Modelling conventions:
- Node `Buffer`s are `List Nat` with entries below 256.
- The SHA-256 digest function is abstracted as a parameter `H : Bytes → Bytes`
  (respectively `String → String` / `String → Nat` where the source hashes
  strings); the theorems hold for every hash function, and witnesses use
  concrete executable stand-ins.
- JavaScript exceptions are modelled with `JsOutcome`: a `try/catch` block
  becomes a total function on `JsOutcome`.
- Field-element arithmetic of the circom circuit is modelled over `Nat`;
  the circomlib comparator bit formulas coincide with the BN254 field
  computation under the range hypotheses stated on each theorem.
-/

/-- Result of running a piece of JavaScript: either a value or a thrown
exception carrying a message. -/
inductive JsOutcome (α : Type) where
  | ok (a : α)
  | thrown (msg : String)
deriving DecidableEq, Repr

/-- A `try { body } catch { return false }` wrapper, as used by both
`ZKProofService.verifyProof` and `MerkleService.verifyProof`. -/
def tryCatchFalse (body : JsOutcome Bool) : Bool :=
  match body with
  | .ok b => b
  | .thrown _ => false

/-- Node `Buffer` contents: a list of bytes (each `< 256`). -/
abbrev Bytes := List Nat

/-- Lowercase hex digit for a value below 16 (`Buffer.toString('hex')`). -/
def hexDigit (n : Nat) : Char :=
  if n < 10 then Char.ofNat (48 + n) else Char.ofNat (87 + n)

/-- Numeric value of a hex digit character; `none` for a non-hex character.
Node's hex decoder accepts both cases. -/
def hexVal (c : Char) : Option Nat :=
  if 48 ≤ c.toNat ∧ c.toNat ≤ 57 then some (c.toNat - 48)
  else if 97 ≤ c.toNat ∧ c.toNat ≤ 102 then some (c.toNat - 87)
  else if 65 ≤ c.toNat ∧ c.toNat ≤ 70 then some (c.toNat - 55)
  else none

/-- Hex chars of a byte list, two lowercase digits per byte. -/
def hexCharsOf (bs : Bytes) : List Char :=
  bs.foldr (fun b acc => hexDigit (b / 16) :: hexDigit (b % 16) :: acc) []

/-- `buffer.toString('hex')`. -/
def bytesToHex (bs : Bytes) : String := ⟨hexCharsOf bs⟩

/-- Hex decoding on characters: decode pairs of hex digits, stopping (as
Node's `Buffer.from(s, 'hex')` does) at the first invalid or incomplete
pair. -/
def hexToBytes : List Char → Bytes
  | c1 :: c2 :: rest =>
    match hexVal c1, hexVal c2 with
    | some a, some b => (16 * a + b) :: hexToBytes rest
    | _, _ => []
  | _ => []

/-- `Buffer.from(s, 'hex')`. -/
def bufferFromHex (s : String) : Bytes := hexToBytes s.data

/-! ## merkletreejs model

`MerkleService` constructs `new MerkleTree(leaves, crypto.createHash,
{hashLeaves: false, sortPairs: true, duplicateOdd: true})`.  We model the
merkletreejs layer construction, proof generation (`getProof`) and the
static `MerkleTree.verify` (which the repository calls WITHOUT options, so
that verification runs with `sortPairs: false`, i.e. position-based
pairing).  The node hash is the abstract parameter `H : Bytes → Bytes`. -/

/-- `Buffer.compare` ordering: lexicographic on bytes, a strict prefix is
smaller. -/
def bytesCmp : Bytes → Bytes → Ordering
  | [], [] => .eq
  | [], _ :: _ => .lt
  | _ :: _, [] => .gt
  | a :: as, b :: bs =>
    match compare a b with
    | .eq => bytesCmp as bs
    | o => o

/-- Combine a sibling pair with `sortPairs: true`: the two buffers are
sorted with `Buffer.compare` before concatenation and hashing. -/
def combineS (H : Bytes → Bytes) (a b : Bytes) : Bytes :=
  if bytesCmp a b = .gt then H (b ++ a) else H (a ++ b)

/-- One level of merkletreejs `_createHashes` with `duplicateOdd: true`:
nodes are paired from the left and an odd trailing node is paired with
itself. -/
def nextLayer (H : Bytes → Bytes) : List Bytes → List Bytes
  | [] => []
  | [a] => [combineS H a a]
  | a :: b :: rest => combineS H a b :: nextLayer H rest

/-- Layer construction with an explicit iteration bound.  merkletreejs
loops `while nodes.length > 1`; each pass at least halves the node count,
so the initial node count bounds the number of passes. -/
def layersFromFuel (H : Bytes → Bytes) : Nat → List Bytes → List (List Bytes)
  | 0, nodes => [nodes]
  | fuel + 1, nodes =>
    if nodes.length ≤ 1 then [nodes]
    else nodes :: layersFromFuel H fuel (nextLayer H nodes)

/-- The merkletreejs `layers` array: `layers[0]` is the (unhashed) leaf
layer and the last layer holds the root. -/
def merkleLayers (H : Bytes → Bytes) (leaves : List Bytes) : List (List Bytes) :=
  layersFromFuel H leaves.length leaves

/-- `tree.getRoot()`: head of the last layer, or an empty buffer. -/
def treeRoot (H : Bytes → Bytes) (leaves : List Bytes) : Bytes :=
  ((merkleLayers H leaves).getLastD []).headD []

/-- Tree depth as reported by `MerkleService.getTreeStats`: number of
layers excluding the leaf layer. -/
def treeDepth (H : Bytes → Bytes) (leaves : List Bytes) : Nat :=
  (merkleLayers H leaves).length - 1

/-- Sibling position recorded in a merkletreejs proof element. -/
inductive Pos where
  | left
  | right
deriving DecidableEq, Repr

/-- A merkletreejs proof element: sibling buffer plus its position. -/
structure ProofElem where
  data : Bytes
  position : Pos
deriving DecidableEq, Repr

/-- merkletreejs `getProof` leaf lookup: scans all leaves and keeps the
LAST index whose buffer equals the target, `-1` if absent. -/
def leafIndex (leaves : List Bytes) (leaf : Bytes) : Int :=
  leaves.enum.foldl (fun acc p => if p.2 = leaf then (p.1 : Int) else acc) (-1)

/-- merkletreejs `getProof` main loop: at each layer the pair index is
`index - 1` (right node) or `index + 1` (left node); an out-of-range pair
index contributes NO proof element (this is what happens at the leaf layer
for a duplicated odd node). -/
def getProofAux : List (List Bytes) → Nat → List ProofElem
  | [], _ => []
  | layer :: rest, idx =>
    let isRight := idx % 2 = 1
    let pairIndex := if isRight then idx - 1 else idx + 1
    let tail := getProofAux rest (idx / 2)
    if h : pairIndex < layer.length then
      ⟨layer.get ⟨pairIndex, h⟩, if isRight then Pos.left else Pos.right⟩ :: tail
    else
      tail

/-- merkletreejs `tree.getProof(leaf)`. -/
def getProof (H : Bytes → Bytes) (leaves : List Bytes) (leaf : Bytes) : List ProofElem :=
  match leafIndex leaves leaf with
  | .negSucc _ => []
  | .ofNat i => getProofAux (merkleLayers H leaves) i

/-- Static `MerkleTree.verify(proof, targetNode, root, hashFn)` as called
by `MerkleService.verifyProof` — no options are passed, so `sortPairs`
defaults to `false` and the pair order is taken from each element's
`position`. -/
def mtVerifyStatic (H : Bytes → Bytes) (proof : List ProofElem) (leaf root : Bytes) : Bool :=
  (proof.foldl
    (fun hash el =>
      match el.position with
      | .left => H (el.data ++ hash)
      | .right => H (hash ++ el.data)) leaf) = root

/-! ## MerkleService (backend service wrapping merkletreejs) -/

/-- A certificate record as consumed by `MerkleService`: only the
`commitment` hex string matters to the tree operations. -/
structure Certificate where
  commitment : String
deriving DecidableEq, Repr

/-- The first occurrence of the substring `0x` removed, as JavaScript's
`s.replace('0x', '')` does (only the FIRST match is replaced). -/
def drop0x : List Char → List Char
  | [] => []
  | '0' :: 'x' :: rest => rest
  | c :: rest => c :: drop0x rest

/-- `merkleRoot.replace('0x', '')` on a string. -/
def strip0x (s : String) : String := ⟨drop0x s.data⟩

namespace MerkleService

/-- `MerkleService.buildMerkleTree`: throws on an empty certificate array,
otherwise decodes each commitment hex string into a leaf buffer.  The
resulting tree object is represented by its leaf list (all layer data is
a function of the leaves and the hash). -/
def buildMerkleTree (certificates : List Certificate) : JsOutcome (List Bytes) :=
  if certificates.isEmpty then
    .thrown "Cannot build Merkle tree from empty certificates array"
  else
    .ok (certificates.map fun cert => bufferFromHex cert.commitment)

/-- An element of the array returned by `MerkleService.generateMerkleProof`:
an OBJECT with a hex `data` field and a `position` field. -/
structure ProofOut where
  data : String
  position : Pos
deriving DecidableEq, Repr

/-- `MerkleService.generateMerkleProof`: runs merkletreejs `getProof` on the
decoded commitment and hex-encodes each element's buffer. -/
def generateMerkleProof (H : Bytes → Bytes) (leaves : List Bytes)
    (commitmentHash : String) : List ProofOut :=
  (getProof H leaves (bufferFromHex commitmentHash)).map
    fun element => ⟨bytesToHex element.data, element.position⟩

/-- Hex string of the tree root, as produced by `getTreeStats` /
`exportTreeData` (`merkleTree.getRoot().toString('hex')`). -/
def merkleRootHex (H : Bytes → Bytes) (leaves : List Bytes) : String :=
  bytesToHex (treeRoot H leaves)

/-- A JavaScript value appearing in the `proof` array handed to
`MerkleService.verifyProof`.  The code calls `element.replace('0x', '')`,
which succeeds on a string and throws a `TypeError` on an object such as
the ones `generateMerkleProof` returns. -/
inductive ProofArg where
  | strArg (s : String)
  | objArg (data : String) (position : Pos)
deriving DecidableEq, Repr

/-- The element conversion inside `MerkleService.verifyProof`:
`{data: Buffer.from(element.replace('0x', ''), 'hex'), position: 'left'}`.
Note the position is hardcoded to `'left'` (the source comments that
position info would be needed in a real implementation). -/
def convertProofElement : ProofArg → JsOutcome ProofElem
  | .strArg s => .ok ⟨bufferFromHex (strip0x s), Pos.left⟩
  | .objArg _ _ => .thrown "TypeError: element.replace is not a function"

/-- `Array.prototype.map` over a callback that may throw. -/
def mapJs {α β : Type} (f : α → JsOutcome β) : List α → JsOutcome (List β)
  | [] => .ok []
  | a :: rest =>
    match f a with
    | .thrown e => .thrown e
    | .ok b =>
      match mapJs f rest with
      | .thrown e => .thrown e
      | .ok bs => .ok (b :: bs)

/-- Body of the `try` block of `MerkleService.verifyProof`. -/
def verifyBody (H : Bytes → Bytes) (commitmentHash : String)
    (proof : List ProofArg) (merkleRoot : String) : JsOutcome Bool :=
  let leaf := bufferFromHex commitmentHash
  let root := bufferFromHex (strip0x merkleRoot)
  match mapJs convertProofElement proof with
  | .thrown e => .thrown e
  | .ok proofElements => .ok (mtVerifyStatic H proofElements leaf root)

/-- `MerkleService.verifyProof`: the whole body runs inside
`try { ... } catch { return false }`. -/
def verifyProof (H : Bytes → Bytes) (commitmentHash : String)
    (proof : List ProofArg) (merkleRoot : String) : Bool :=
  tryCatchFalse (verifyBody H commitmentHash proof merkleRoot)

/-- JavaScript-level outcome of calling `MerkleService.verifyProof`: the
function itself never throws, it returns the caught-or-computed boolean. -/
def verifyProofJS (H : Bytes → Bytes) (commitmentHash : String)
    (proof : List ProofArg) (merkleRoot : String) : JsOutcome Bool :=
  .ok (verifyProof H commitmentHash proof merkleRoot)

/-- Exported backup data (`MerkleService.exportTreeData`): the stored root
and the hex-encoded leaves.  The export also carries per-certificate
proofs and metadata, which `importTreeData` ignores; they are omitted
here. -/
structure TreeData where
  merkleRoot : String
  leaves : List String
deriving DecidableEq, Repr

/-- `MerkleService.exportTreeData` restricted to the fields that
`importTreeData` consumes. -/
def exportTreeData (H : Bytes → Bytes) (leaves : List Bytes) : TreeData :=
  { merkleRoot := merkleRootHex H leaves
    leaves := leaves.map bytesToHex }

/-- `MerkleService.importTreeData`: decodes the stored leaves, rebuilds the
tree with the same options, and throws iff the re-derived root differs
from the stored `merkleRoot`. -/
def importTreeData (H : Bytes → Bytes) (treeData : TreeData) : JsOutcome (List Bytes) :=
  let leaves := treeData.leaves.map bufferFromHex
  if merkleRootHex H leaves ≠ treeData.merkleRoot then
    .thrown "Tree reconstruction failed: root mismatch"
  else
    .ok leaves

end MerkleService

/-! ## Concrete hash stand-in used by witnesses and counterexamples -/

/-- An executable stand-in hash used to evaluate the (hash-generic)
definitions at concrete inputs: one output byte, the byte sum mod 256. -/
def hashDemo (bs : Bytes) : Bytes := [bs.foldl (fun a b => (a + b) % 256) 0]


/-! ## ZKProofService and CertificateUtils -/

/-- BN254 scalar field modulus used by `stringToFieldElement`. -/
def pBN254 : Nat :=
  21888242871839275222246405745257275088548364400416034343698204186575808495617

/-- Raw input record handed to `ZKProofService` (`studentId`, `salt`,
`subjects`, policy parameters). -/
structure RawInput where
  studentId : String
  salt : String
  subjects : List Nat
  minPassingGrade : Nat
  requireAllPassed : Bool
deriving DecidableEq, Repr

/-- The string `[studentId, salt, ...subjects].join('|')` hashed by
`calculateCommitment`. -/
def commitmentData (input : RawInput) : String :=
  String.intercalate "|" ([input.studentId, input.salt] ++ input.subjects.map toString)

namespace CertificateUtils

/-- `CertificateUtils.hashStudentData(studentData, salt)`: joins
`[studentId, salt, ...subjects]` with `'|'` and hashes the result, with no
validation of the grades.  `sha` abstracts `crypto.createHash('sha256')`
hex digesting. -/
def hashStudentData (sha : String → String) (studentData : RawInput) (salt : String) : String :=
  sha (String.intercalate "|"
    ([studentData.studentId, salt] ++ studentData.subjects.map toString))

/-- `CertificateUtils.stringToFieldElement`: SHA-256 digest of the string,
read as a big-endian number (`sha256Num`), reduced mod the BN254 modulus,
rendered in decimal. -/
def stringToFieldElement (sha256Num : String → Nat) (str : String) : String :=
  toString (sha256Num str % pBN254)

end CertificateUtils

namespace ZKProofService

/-- `ZKProofService.calculateCommitment`: joins the fields and hashes; the
function body can not throw, so the outcome is always `ok`. -/
def calculateCommitment (sha : String → String) (input : RawInput) : JsOutcome String :=
  .ok (sha (commitmentData input))

/-- `ZKProofService.stringToFieldElement` (identical to the
`CertificateUtils` version). -/
def stringToFieldElement (sha256Num : String → Nat) (str : String) : String :=
  toString (sha256Num str % pBN254)

/-- The inputs `ZKProofService.prepareCircuitInputs` feeds to the circuit:
note there is NO Merkle root, sibling path or path-index input. -/
structure CircuitInputs where
  studentId : Nat
  subjects : List Nat
  salt : Nat
  minPassingGrade : Nat
  requireAllPassed : Nat
deriving DecidableEq, Repr

/-- `ZKProofService.prepareCircuitInputs`. -/
def prepareCircuitInputs (sha256Num : String → Nat) (input : RawInput) : CircuitInputs :=
  { studentId := sha256Num input.studentId % pBN254
    subjects := input.subjects
    salt := sha256Num input.salt % pBN254
    minPassingGrade := input.minPassingGrade
    requireAllPassed := if input.requireAllPassed then 1 else 0 }

/-- A snarkjs-format proof as a JavaScript object: coordinate arrays whose
entries are strings, with `none` standing for JavaScript `undefined` (the
value an out-of-range array index yields). -/
structure SnarkProof where
  pi_a : List (Option String)
  pi_b : List (List (Option String))
  pi_c : List (Option String)
deriving DecidableEq, Repr

/-- A Solidity-format proof object `{a, b, c}`. -/
structure SolidityProof where
  a : List (Option String)
  b : List (List (Option String))
  c : List (Option String)
deriving DecidableEq, Repr

/-- JavaScript array indexing: out of range gives `undefined` (`none`). -/
def jsIdx (l : List (Option String)) (i : Nat) : Option String := l.getD i none

/-- JavaScript row indexing for the nested `b` array.  An out-of-range row
would be `undefined` and indexing into it would throw; the theorems below
only use it under length hypotheses that keep every access in range. -/
def jsRow (rows : List (List (Option String))) (i : Nat) : List (Option String) :=
  rows.getD i []

/-- `ZKProofService.formatProofForSolidity`: drops the third (projective)
coordinates and swaps the inner coordinates of each `pi_b` row. -/
def formatProofForSolidity (proof : SnarkProof) : SolidityProof :=
  { a := [jsIdx proof.pi_a 0, jsIdx proof.pi_a 1]
    b := [[jsIdx (jsRow proof.pi_b 0) 1, jsIdx (jsRow proof.pi_b 0) 0],
          [jsIdx (jsRow proof.pi_b 1) 1, jsIdx (jsRow proof.pi_b 1) 0]]
    c := [jsIdx proof.pi_c 0, jsIdx proof.pi_c 1] }

/-- `ZKProofService.formatProofFromSolidity`: swaps the inner coordinates
of each `b` row back and reinstates the constant third coordinates. -/
def formatProofFromSolidity (solidityProof : SolidityProof) : SnarkProof :=
  { pi_a := [jsIdx solidityProof.a 0, jsIdx solidityProof.a 1, some "1"]
    pi_b := [[jsIdx (jsRow solidityProof.b 0) 1, jsIdx (jsRow solidityProof.b 0) 0],
             [jsIdx (jsRow solidityProof.b 1) 1, jsIdx (jsRow solidityProof.b 1) 0],
             [some "1", some "0"]]
    pi_c := [jsIdx solidityProof.c 0, jsIdx solidityProof.c 1, some "1"] }

/-- Environment of `ZKProofService.verifyProof`: whether the verification
key file exists, the outcome of reading and JSON-parsing it, and the
behaviour of `snarkjs.groth16.verify` (which may throw, e.g. on a wrong
curve point encoding or a mismatched public-input count). -/
structure VerifyEnv where
  keyFileExists : Bool
  readAndParseKey : JsOutcome String
  groth16Verify : String → List String → SnarkProof → JsOutcome Bool

/-- Body of the `try` block of `ZKProofService.verifyProof`. -/
def verifyBody (env : VerifyEnv) (proof : SolidityProof)
    (publicSignals : List String) : JsOutcome Bool :=
  if env.keyFileExists = false then .thrown "Verification key not found"
  else
    match env.readAndParseKey with
    | .thrown e => .thrown e
    | .ok verificationKey =>
      env.groth16Verify verificationKey publicSignals (formatProofFromSolidity proof)

/-- `ZKProofService.verifyProof`: the whole body runs inside
`try { ... } catch { return false }`. -/
def verifyProof (env : VerifyEnv) (proof : SolidityProof)
    (publicSignals : List String) : Bool :=
  tryCatchFalse (verifyBody env proof publicSignals)

/-- JavaScript-level outcome of calling `ZKProofService.verifyProof`. -/
def verifyProofJS (env : VerifyEnv) (proof : SolidityProof)
    (publicSignals : List String) : JsOutcome Bool :=
  .ok (verifyProof env proof publicSignals)

end ZKProofService

/-! ## The circom circuit `CertificateVerifier(5)`

The circuit compiled and fed by `ZKProofService` is the `CertificateVerifier`
template of `circuits/certificate.circom` (instantiated with 5 subjects).
Signals are BN254 field elements; we model them as `Nat`.  The circomlib
comparators `LessThan(n)` / `LessEqThan(n)` / `GreaterEqThan(n)` compute
`1 - bit n of (in0 + 2^n - in1)`; over `Nat` this coincides with the field
computation whenever the inputs are below `2^n`, which the theorems assume.
The Poseidon hash is the abstract parameter `posH`. -/

/-- Bit `k` of `v`. -/
def bitAt (v k : Nat) : Nat := v / 2 ^ k % 2

/-- circomlib `LessThan(n)`. -/
def lessThanC (n a b : Nat) : Nat := 1 - bitAt (a + 2 ^ n - b) n

/-- circomlib `LessEqThan(n)` (`LessThan(n)` against `b + 1`). -/
def lessEqThanC (n a b : Nat) : Nat := lessThanC n a (b + 1)

/-- circomlib `GreaterEqThan(n)` (`LessThan(n)` with swapped inputs against
`a + 1`). -/
def greaterEqThanC (n a b : Nat) : Nat := lessThanC n b (a + 1)

/-- circomlib `AND` gate: `a * b`. -/
def andG (a b : Nat) : Nat := a * b

/-- circomlib `OR` gate: `a + b - a * b`. -/
def orG (a b : Nat) : Nat := a + b - a * b

/-- circomlib `NOT` gate (`1 + in - 2 * in`), over `Nat` for a binary
input. -/
def notG (a : Nat) : Nat := 1 - a

namespace Circuit

/-- Outputs of the per-subject `GreaterEqThan(8)` grade checks. -/
def gradeChecksOut (subjects : List Nat) (minPassingGrade : Nat) : List Nat :=
  subjects.map fun g => greaterEqThanC 8 g minPassingGrade

/-- The witness-acceptance constraint of the circuit: every subject must
satisfy the `LessEqThan(8)` range check against 100 (`rangeCheck.out === 1`). -/
def accepted (subjects : List Nat) : Bool :=
  subjects.all fun g => lessEqThanC 8 g 100 == 1

/-- The AND-chain over the grade checks (`andGates`), computing
`allPassedSignal`. -/
def allPassedOut (subjects : List Nat) (minPassingGrade : Nat) : Nat :=
  match gradeChecksOut subjects minPassingGrade with
  | [] => 1
  | x :: xs => xs.foldl andG x

/-- The circuit's public output
`isValid = OR(NOT requireAllPassed, AND(requireAllPassed, allPassedSignal))`.
Note: the circuit has NO Merkle root input and no Merkle path logic. -/
def isValidOut (subjects : List Nat) (minPassingGrade requireAllPassed : Nat) : Nat :=
  orG (notG requireAllPassed) (andG requireAllPassed (allPassedOut subjects minPassingGrade))

/-- The circuit's second public output: the Poseidon commitment
`posH(studentId, salt, subjects...)`. -/
def commitmentOut (posH : List Nat → Nat) (studentId salt : Nat) (subjects : List Nat) : Nat :=
  posH ([studentId, salt] ++ subjects)

end Circuit

/-- Follows the spec's words (§4.3, constraint 4): the grade-policy gate is
`IF requireAll THEN allPassed ELSE true`. -/
def specGatePolicy (requireAll allPassed : Nat) : Nat :=
  if requireAll = 1 then allPassed else 1

/-- Follows the spec's words (§4.3 constraint 5 with §4.2's sort-then-hash
rule): recompute the Merkle path bottom-up from the commitment leaf,
sorting each pair before hashing, and compare with the public root. -/
def specMerkleValid (posH : List Nat → Nat) (leaf : Nat) (siblings : List Nat)
    (root : Nat) : Nat :=
  if siblings.foldl
      (fun cur sib => if cur ≤ sib then posH [cur, sib] else posH [sib, cur]) leaf = root
  then 1 else 0


/-! ## Concrete stand-ins for string hashing and Poseidon -/

/-- Executable stand-in for a string digest, used only to evaluate
hash-generic definitions at concrete inputs. -/
def shaDemo (s : String) : String := toString s.length

/-- Executable stand-in for Poseidon. -/
def posHDemo (l : List Nat) : Nat := l.foldl (· + ·) 0 + 1

/-- Demo verification environment whose `groth16.verify` throws (as on a
malformed curve point). -/
def zkEnvDemo : ZKProofService.VerifyEnv :=
  ⟨true, .ok "vk", fun _ _ _ => .thrown "wrong curve point encoding"⟩

/-! ## Helper lemmas -/

theorem hexVal_hexDigit_fin : ∀ n : Fin 16, hexVal (hexDigit n.val) = some n.val := by
  decide

theorem hexVal_hexDigit {n : Nat} (h : n < 16) : hexVal (hexDigit n) = some n :=
  hexVal_hexDigit_fin ⟨n, h⟩

/-- Hex round-trip on byte lists: decoding the lowercase hex encoding of a
byte list recovers it. -/
theorem hexToBytes_hexCharsOf (bs : Bytes) (h : ∀ b ∈ bs, b < 256) :
    hexToBytes (hexCharsOf bs) = bs := by
  induction bs with
  | nil => rfl
  | cons b bs ih =>
    have hb : b < 256 := h b (List.mem_cons_self b bs)
    have hhi : b / 16 < 16 := by omega
    have hlo : b % 16 < 16 := by omega
    have hrest : ∀ x ∈ bs, x < 256 := fun x hx => h x (List.mem_cons_of_mem b hx)
    have hrec := ih hrest
    show hexToBytes (hexDigit (b / 16) :: hexDigit (b % 16) :: hexCharsOf bs) = b :: bs
    have key : 16 * (b / 16) + b % 16 = b := Nat.div_add_mod b 16
    simp only [hexToBytes, hexVal_hexDigit hhi, hexVal_hexDigit hlo, key, hrec]

theorem bufferFromHex_bytesToHex (bs : Bytes) (h : ∀ b ∈ bs, b < 256) :
    bufferFromHex (bytesToHex bs) = bs :=
  hexToBytes_hexCharsOf bs h

theorem nextLayer_length (H : Bytes → Bytes) :
    ∀ nodes : List Bytes, (nextLayer H nodes).length = (nodes.length + 1) / 2
  | [] => rfl
  | [_] => by simp [nextLayer]
  | _ :: _ :: rest => by
    simp only [nextLayer, List.length_cons, nextLayer_length H rest]
    omega

/-- The comparator formula agrees with the comparison for 8-bit inputs. -/
theorem greaterEqThanC_spec (g T : Nat) (hg : g < 256) (hT : T < 256) :
    greaterEqThanC 8 g T = if T ≤ g then 1 else 0 := by
  have h8 : (2 : Nat) ^ 8 = 256 := by norm_num
  unfold greaterEqThanC lessThanC bitAt
  rw [h8]
  split <;> omega

/-- The range-check formula agrees with `g ≤ 100` for 8-bit inputs. -/
theorem lessEqThanC_100_spec (g : Nat) (hg : g < 256) :
    lessEqThanC 8 g 100 = if g ≤ 100 then 1 else 0 := by
  have h8 : (2 : Nat) ^ 8 = 256 := by norm_num
  unfold lessEqThanC lessThanC bitAt
  rw [h8]
  split <;> omega

theorem foldl_andG_ite (xs : List Nat) (q : Nat → Prop) [DecidablePred q]
    (A : Prop) [Decidable A] :
    (xs.map fun x => if q x then (1 : Nat) else 0).foldl andG (if A then 1 else 0) =
      if A ∧ ∀ x ∈ xs, q x then 1 else 0 := by
  induction xs generalizing A with
  | nil => simp
  | cons x xs ih =>
    simp only [List.map_cons, List.foldl_cons]
    have hand : andG (if A then (1 : Nat) else 0) (if q x then 1 else 0) =
        if A ∧ q x then 1 else 0 := by
      unfold andG
      by_cases hA : A <;> by_cases hq : q x <;> simp [hA, hq]
    rw [hand, ih (A ∧ q x)]
    exact if_congr (by rw [List.forall_mem_cons]; tauto) rfl rfl

/-- The AND-chain computes the indicator of "every grade meets the
threshold" (8-bit inputs). -/
theorem allPassedOut_spec (subjects : List Nat) (T : Nat)
    (hb : ∀ g ∈ subjects, g < 256) (hT : T < 256) :
    Circuit.allPassedOut subjects T = if ∀ g ∈ subjects, T ≤ g then 1 else 0 := by
  unfold Circuit.allPassedOut Circuit.gradeChecksOut
  have hrw : subjects.map (fun g => greaterEqThanC 8 g T) =
      subjects.map fun g => if T ≤ g then 1 else 0 :=
    List.map_congr_left fun g hgm => greaterEqThanC_spec g T (hb g hgm) hT
  rw [hrw]
  cases subjects with
  | nil => simp
  | cons g gs =>
    simp only [List.map_cons]
    rw [foldl_andG_ite gs (fun y => T ≤ y) (T ≤ g)]
    exact if_congr (by rw [List.forall_mem_cons]) rfl rfl

/-- Shared helper: for a binary `requireAllPassed`, the OR/NOT/AND gate
combination collapses to `if requireAllPassed = 1 then allPassedSignal
else 1`. -/
theorem isValidOut_gate (subjects : List Nat) (T req : Nat) (hreq : req ≤ 1) :
    Circuit.isValidOut subjects T req =
      if req = 1 then Circuit.allPassedOut subjects T else 1 := by
  unfold Circuit.isValidOut orG andG notG
  interval_cases req <;> simp

/-! ## Claims C1, C5, C7, C9 (accumulator) -/

/-- C9: `MerkleService.verifyProof` is total: for every commitment string,
proof array (of strings or of objects) and root string, the call returns a
boolean — the whole body runs in a `try` block whose `catch` returns
`false`, so a thrown conversion or verification error is mapped to `false`
and no exception escapes. -/
theorem merkleVerifyProof_total (H : Bytes → Bytes) (commitmentHash : String)
    (proof : List MerkleService.ProofArg) (merkleRoot : String) :
    (∃ b : Bool, MerkleService.verifyProofJS H commitmentHash proof merkleRoot = .ok b) ∧
    (∀ e, MerkleService.verifyBody H commitmentHash proof merkleRoot = .thrown e →
      MerkleService.verifyProof H commitmentHash proof merkleRoot = false) := by
  refine ⟨⟨_, rfl⟩, fun e he => ?_⟩
  simp [MerkleService.verifyProof, tryCatchFalse, he]

theorem merkleVerifyProof_total_witness :
    MerkleService.verifyProof hashDemo "aa"
      [MerkleService.ProofArg.objArg "bb" Pos.right] "65" = false :=
  (merkleVerifyProof_total hashDemo "aa"
      [MerkleService.ProofArg.objArg "bb" Pos.right] "65").2
    "TypeError: element.replace is not a function" (by decide)

/-- C1 (evaluation at the failing input): for the two-leaf tree built from
commitments `"aa"` and `"bb"`, verifying leaf `"aa"` against the generated
proof and the tree root returns FALSE, not true: `generateMerkleProof`
yields `{data, position}` objects while `verifyProof` expects strings
(`element.replace` throws, the catch returns false) — and even string
elements would be combined with a hardcoded `'left'` position by the
unsorted static verifier. -/
theorem verify_of_generated_proof_fails :
    MerkleService.buildMerkleTree [⟨"aa"⟩, ⟨"bb"⟩] = .ok [[170], [187]] ∧
    MerkleService.generateMerkleProof hashDemo [[170], [187]] "aa" =
      [⟨"bb", Pos.right⟩] ∧
    MerkleService.verifyProof hashDemo "aa"
      ((MerkleService.generateMerkleProof hashDemo [[170], [187]] "aa").map
        fun p => MerkleService.ProofArg.objArg p.data p.position)
      (MerkleService.merkleRootHex hashDemo [[170], [187]]) = false := by
  refine ⟨by decide, by decide, by decide⟩

/-- C5: tree import throws exactly when the root re-derived from the
imported leaves differs from the stored `merkleRoot`, and importing an
export of a (non-empty) tree succeeds and reconstructs the same leaves —
hence the same root. -/
theorem importTreeData_spec (H : Bytes → Bytes) (leaves : List Bytes)
    (hbytes : ∀ l ∈ leaves, ∀ b ∈ l, b < 256) (hne : leaves ≠ []) :
    (∀ td : MerkleService.TreeData,
      (∃ e, MerkleService.importTreeData H td = .thrown e) ↔
        MerkleService.merkleRootHex H (td.leaves.map bufferFromHex) ≠ td.merkleRoot) ∧
    MerkleService.importTreeData H (MerkleService.exportTreeData H leaves) =
      .ok leaves := by
  constructor
  · intro td
    by_cases hc :
        MerkleService.merkleRootHex H (td.leaves.map bufferFromHex) ≠ td.merkleRoot
    · simp [MerkleService.importTreeData, hc]
    · simp [MerkleService.importTreeData, hc]
  · have hparse : (leaves.map bytesToHex).map bufferFromHex = leaves := by
      rw [List.map_map]
      calc leaves.map (bufferFromHex ∘ bytesToHex)
          = leaves.map id :=
            List.map_congr_left fun l hl => bufferFromHex_bytesToHex l (hbytes l hl)
        _ = leaves := List.map_id leaves
    simp [MerkleService.importTreeData, MerkleService.exportTreeData, hparse]

theorem importTreeData_spec_witness :
    MerkleService.importTreeData hashDemo
      (MerkleService.exportTreeData hashDemo [[171], [18]]) =
      JsOutcome.ok [[171], [18]] :=
  (importTreeData_spec hashDemo [[171], [18]] (by decide) (by decide)).2

/-- C7 counterexample: in the 3-leaf tree built from commitments `"11"`,
`"22"`, `"33"`, the proof generated for the third leaf has length 1, not 2:
`duplicateOdd` only affects how the parent hash is computed, the leaf layer
keeps 3 nodes, so the odd leaf has no stored sibling at level 0. -/
theorem proof_length_3leaf_counterexample :
    ¬ (MerkleService.generateMerkleProof hashDemo [[17], [34], [51]] "33").length = 2 := by
  decide

/-- C7 amended: for every hash function, the 3-leaf tree `[h1,h2,h3]` has
depth 2 and its root is hashed over the effective structure
`[h1,h2,h3,h3]` (the odd leaf is paired with itself), but the generated
proof for `h3` has length 1 — proof length equals tree depth only for
leaves with a stored sibling at every level, e.g. the proof for `h1` has
length 2. -/
theorem proof_length_3leaf_amended (H : Bytes → Bytes) :
    (MerkleService.generateMerkleProof H [[17], [34], [51]] "33").length = 1 ∧
    (MerkleService.generateMerkleProof H [[17], [34], [51]] "11").length = 2 ∧
    treeDepth H [[17], [34], [51]] = 2 ∧
    treeRoot H [[17], [34], [51]] = combineS H (H [17, 34]) (H [51, 51]) := by
  refine ⟨rfl, rfl, rfl, rfl⟩

/-! ## Claims C2, C3, C4, C6, C8, C10 -/

/-- C2 counterexample: a concrete accepted witness (all grades 50,
threshold 40, requireAll = 1) makes the circuit output `isValid = 1`, yet
the spec-side Merkle validation (sort-then-hash recomputation from the
commitment, here against root 999 with sibling 3) is 0: `isValid` does not
equal `merkleValid AND gatePolicy` — the deployed `CertificateVerifier`
circuit performs no Merkle path recomputation at all. -/
theorem circuit_merkle_claim_counterexample :
    Circuit.accepted [50, 50, 50, 50, 50] = true ∧
    Circuit.isValidOut [50, 50, 50, 50, 50] 40 1 = 1 ∧
    specMerkleValid posHDemo
      (Circuit.commitmentOut posHDemo 7 9 [50, 50, 50, 50, 50]) [3] 999 = 0 ∧
    Circuit.isValidOut [50, 50, 50, 50, 50] 40 1 ≠
      andG
        (specMerkleValid posHDemo
          (Circuit.commitmentOut posHDemo 7 9 [50, 50, 50, 50, 50]) [3] 999)
        (specGatePolicy 1 (Circuit.allPassedOut [50, 50, 50, 50, 50] 40)) :=
  ⟨by decide, by decide, by decide, by decide⟩

/-- C2 amended: for every witness accepted by the circuit (binary
`requireAllPassed`), the single validity output equals the grade-policy
gate alone: `isValid = IF requireAll THEN allPassed ELSE true`.  The
circuit takes no Merkle root and performs no in-circuit Merkle path
recomputation; the Poseidon commitment is exposed as a second public
output instead. -/
theorem circuit_isValid_eq_gatePolicy (subjects : List Nat) (T req : Nat)
    (hreq : req ≤ 1) (hacc : Circuit.accepted subjects = true) :
    Circuit.isValidOut subjects T req =
      specGatePolicy req (Circuit.allPassedOut subjects T) := by
  rw [isValidOut_gate subjects T req hreq]
  rfl

theorem circuit_isValid_eq_gatePolicy_witness :
    Circuit.isValidOut [88, 92, 85, 90, 87] 40 1 =
      specGatePolicy 1 (Circuit.allPassedOut [88, 92, 85, 90, 87] 40) :=
  circuit_isValid_eq_gatePolicy [88, 92, 85, 90, 87] 40 1 (by decide) (by decide)

/-- C3 counterexample: for a record whose first grade is 150 (outside
`[0,100]`), `calculateCommitment` does not fail — it hashes the joined
data string (which contains the out-of-range grade) and returns the
digest. -/
theorem commitment_computed_for_out_of_range :
    (⟨"STU001", "abc", [150, 90, 90, 90, 90], 40, true⟩ : RawInput).subjects.any
      (fun g => decide (100 < g)) = true ∧
    ZKProofService.calculateCommitment shaDemo
        ⟨"STU001", "abc", [150, 90, 90, 90, 90], 40, true⟩ =
      .ok (shaDemo "STU001|abc|150|90|90|90|90") :=
  ⟨by decide, by decide⟩

/-- C3 amended: the commitment computation performs no grade-range
validation at all: for every record — in range or not — it succeeds and
returns the hash of the joined data, agreeing with
`CertificateUtils.hashStudentData`.  Grade-range checking happens only
upstream (CSV parsing) and inside the circuit. -/
theorem calculateCommitment_total (sha : String → String) (input : RawInput) :
    ZKProofService.calculateCommitment sha input =
      .ok (CertificateUtils.hashStudentData sha input input.salt) := rfl

/-- C4: succinct-proof verification fails closed: for every environment
(key present or not, arbitrary behaviour of `snarkjs.groth16.verify`,
including throwing on malformed curve points or mismatched public-input
counts), every proof object and every public-signal vector,
`ZKProofService.verifyProof` returns a boolean, and any exception thrown
inside the body is mapped to `false` rather than escaping. -/
theorem zkVerifyProof_fails_closed (env : ZKProofService.VerifyEnv)
    (proof : ZKProofService.SolidityProof) (publicSignals : List String) :
    (∃ b : Bool, ZKProofService.verifyProofJS env proof publicSignals = .ok b) ∧
    (∀ e, ZKProofService.verifyBody env proof publicSignals = .thrown e →
      ZKProofService.verifyProof env proof publicSignals = false) := by
  refine ⟨⟨_, rfl⟩, fun e he => ?_⟩
  simp [ZKProofService.verifyProof, tryCatchFalse, he]


theorem zkVerifyProof_fails_closed_witness :
    ZKProofService.verifyProof zkEnvDemo ⟨[], [], []⟩ [] = false :=
  (zkVerifyProof_fails_closed zkEnvDemo ⟨[], [], []⟩ []).2
    "wrong curve point encoding" rfl

/-- C6: threshold monotonicity: with fixed grades and fixed (binary)
`requireAllPassed`, if the circuit accepts with `isValid = 1` at threshold
`T`, it also outputs `isValid = 1` at every threshold `T' ≤ T` (8-bit
inputs, as the circuit's comparators assume). -/
theorem threshold_monotone (subjects : List Nat) (T T' req : Nat)
    (hb : ∀ g ∈ subjects, g < 256) (hT : T < 256) (hle : T' ≤ T) (hreq : req ≤ 1)
    (hvalid : Circuit.isValidOut subjects T req = 1) :
    Circuit.isValidOut subjects T' req = 1 := by
  have hT' : T' < 256 := Nat.lt_of_le_of_lt hle hT
  rw [isValidOut_gate subjects T req hreq] at hvalid
  rw [isValidOut_gate subjects T' req hreq]
  by_cases h1 : req = 1
  · rw [if_pos h1] at hvalid ⊢
    rw [allPassedOut_spec subjects T hb hT] at hvalid
    rw [allPassedOut_spec subjects T' hb hT']
    by_cases hall : ∀ g ∈ subjects, T ≤ g
    · exact if_pos (fun g hg => le_trans hle (hall g hg))
    · rw [if_neg hall] at hvalid
      exact absurd hvalid (by decide)
  · rw [if_neg h1]

theorem threshold_monotone_witness :
    Circuit.isValidOut [88, 92, 85, 90, 87] 30 1 = 1 :=
  threshold_monotone [88, 92, 85, 90, 87] 40 30 1 (by decide) (by decide)
    (by decide) (by decide) (by decide)

/-- C8: every string fed through `stringToFieldElement` (both the
`ZKProofService` and the `CertificateUtils` copy) yields the decimal
representation of a non-negative integer strictly below the BN254 scalar
field modulus. -/
theorem stringToFieldElement_in_field (sha256Num : String → Nat) (str : String) :
    ∃ k : Nat, ZKProofService.stringToFieldElement sha256Num str = toString k ∧
      k < pBN254 ∧ CertificateUtils.stringToFieldElement sha256Num str = toString k :=
  ⟨sha256Num str % pBN254, rfl, Nat.mod_lt _ (by decide), rfl⟩

/-- C10: converting a snarkjs proof to Solidity format and back restores
the first two coordinates of `pi_a` and `pi_c` and the first two rows of
`pi_b` exactly (the inner coordinate swap applied twice cancels); only the
constant projective third components are re-synthesised. -/
theorem formatProof_roundtrip (p : ZKProofService.SnarkProof)
    (a0 a1 c0 c1 b00 b01 b10 b11 : Option String)
    (arest crest : List (Option String)) (brest : List (List (Option String)))
    (ha : p.pi_a = a0 :: a1 :: arest)
    (hb : p.pi_b = [b00, b01] :: [b10, b11] :: brest)
    (hc : p.pi_c = c0 :: c1 :: crest) :
    ZKProofService.formatProofFromSolidity (ZKProofService.formatProofForSolidity p) =
      { pi_a := [a0, a1, some "1"]
        pi_b := [[b00, b01], [b10, b11], [some "1", some "0"]]
        pi_c := [c0, c1, some "1"] } := by
  simp [ZKProofService.formatProofForSolidity, ZKProofService.formatProofFromSolidity,
    ZKProofService.jsIdx, ZKProofService.jsRow, ha, hb, hc]

theorem formatProof_roundtrip_witness :
    ZKProofService.formatProofFromSolidity
      (ZKProofService.formatProofForSolidity
        ⟨[some "1", some "2", some "1"],
         [[some "3", some "4"], [some "5", some "6"], [some "1", some "0"]],
         [some "7", some "8", some "1"]⟩) =
      { pi_a := [some "1", some "2", some "1"]
        pi_b := [[some "3", some "4"], [some "5", some "6"], [some "1", some "0"]]
        pi_c := [some "7", some "8", some "1"] } :=
  formatProof_roundtrip _ (some "1") (some "2") (some "7") (some "8")
    (some "3") (some "4") (some "5") (some "6")
    [some "1"] [some "1"] [[some "1", some "0"]] rfl rfl rfl
